import Mathlib

/-!
Verification of the conversational scheduling assistant
(`src/Task/backend/backend.py`, with its near-duplicate `src/Task/backend.py`).

The embedding is shallow:

* Timestamps (`datetime`) are modelled at minute granularity as a `Nat`:
  the number of minutes since an arbitrary reference Monday 00:00 local time.
  Python's `datetime.weekday()` (Monday = 0 … Sunday = 6), `.hour`, `.minute`
  and `timedelta` arithmetic then become plain arithmetic on `Nat`.  The
  `second`/`microsecond` components, always zeroed by the code paths under
  study, are below the granularity of the model.
* The `strftime` rendering stored in a slot's `formatted` field is kept
  abstract as a parameter `fmt : Nat → String` of the availability engine:
  no claim depends on its content.
* Python strings are modelled as `String` / `List Char` (ASCII; `str.lower`,
  `str.strip`, substring tests and `int` parsing are modelled on ASCII text,
  which covers every literal the program compares against).
* The appointment store (`MockCalendar.appointments`) is a `List Appt`;
  the in-place list mutations of the source become explicit state passing.
-/

namespace CalendarAssistant

/-- Python `datetime.hour`. -/
def hourOf (t : Nat) : Nat := t / 60 % 24

/-- Python `datetime.minute`. -/
def minuteOf (t : Nat) : Nat := t % 60

/-- Whole days since the reference Monday. -/
def dayIndex (t : Nat) : Nat := t / 1440

/-- Python `datetime.weekday()`: 0 = Monday … 6 = Sunday. -/
def weekdayOf (t : Nat) : Nat := dayIndex t % 7

/-- Python `dt.replace(hour=h, minute=0, second=0, microsecond=0)`:
same day, time of day set to `h:00`. -/
def replaceHour (t : Nat) (h : Nat) : Nat := dayIndex t * 1440 + h * 60

/-- One day of minutes (`timedelta(days=1)`). -/
def oneDay : Nat := 1440

/-- A committed booking, `backend.py` appointment dict. -/
structure Appt where
  id : String
  title : String
  start : Nat
  stop : Nat
deriving DecidableEq

/-- A candidate hour-long slot produced by `MockCalendar.get_availability`.
The source dict carries the start/end both as `datetime` objects and as ISO
strings; both are represented by the single `Nat` value here.  `formatted`
is the `strftime("%A, %B %d at %I:%M %p")` rendering, kept abstract. -/
structure Slot where
  start : Nat
  stop : Nat
  formatted : String
deriving DecidableEq

/-- The two appointments installed by `MockCalendar.__init__`, relative to
the current time `now` (the source calls `datetime.now()` once per field;
the sub-second drift between those calls is below the model granularity). -/
def initial_appointments (now : Nat) : List Appt :=
  [ { id := "1", title := "Team Meeting",
      start := now + oneDay + 2 * 60, stop := now + oneDay + 3 * 60 },
    { id := "2", title := "Client Call",
      start := now + 2 * oneDay + 4 * 60, stop := now + 2 * oneDay + 5 * 60 } ]

/-- The body of the `while current < end_date` loop of
`MockCalendar.get_availability`, as a fuel-indexed structural recursion.
Each iteration consumes one unit of fuel and advances `current` by 60
minutes, so any fuel of at least `ed - current` units reproduces the loop
exactly (`availLoop_fuel` below makes that independence precise). -/
def availLoop (appts : List Appt) (fmt : Nat → String) (ed : Nat) :
    Nat → Nat → List Slot
  | 0, _ => []
  | fuel + 1, current =>
    if current < ed then
      let rest := availLoop appts fmt ed fuel (current + 60)
      -- Only business hours (9 AM to 5 PM), Monday to Friday
      if 9 ≤ hourOf current ∧ hourOf current < 17 ∧ weekdayOf current < 5 then
        -- Check for conflicts with existing appointments
        if appts.any (fun apt =>
            decide (current < apt.stop) && decide (current + 60 > apt.start)) then
          rest
        else
          { start := current, stop := current + 60, formatted := fmt current } :: rest
      else rest
    else []

/-- `MockCalendar.get_availability(start_date, end_date)`: walk the window in
one-hour steps, keep conflict-free business-hour slots, return at most 10. -/
def get_availability (fmt : Nat → String) (appts : List Appt) (sd ed : Nat) :
    List Slot :=
  (availLoop appts fmt ed (ed - sd) sd).take 10

/-- `MockCalendar.book_appointment(title, start, duration_hours=1)`:
unconditionally append an appointment whose id is `str(len(appointments)+1)`.
Returns the new store and the created appointment.  The `duration_hours`
argument defaults to 1 in the source; here it is always passed explicitly. -/
def book_appointment (appts : List Appt) (title : String) (start : Nat)
    (duration_hours : Nat) : List Appt × Appt :=
  let appointment : Appt :=
    { id := toString (appts.length + 1), title := title,
      start := start, stop := start + duration_hours * 60 }
  (appts ++ [appointment], appointment)

/-- The scan of the `DELETE /appointments/{appointment_id}` handler: pop the
first appointment whose id matches, or report not-found (`none`). -/
def removeFirstById : List Appt → String → Option (List Appt × Appt)
  | [], _ => none
  | apt :: rest, aid =>
    if apt.id = aid then some (rest, apt)
    else (removeFirstById rest aid).map (fun p => (apt :: p.1, p.2))

/-- `cancel_appointment(appointment_id)` endpoint: returns the resulting
appointment store together with either the removed appointment or the
404 `"Appointment not found"` error; the store is unchanged on the error. -/
def cancel_appointment (appts : List Appt) (appointment_id : String) :
    List Appt × Except String Appt :=
  match removeFirstById appts appointment_id with
  | some (rest, apt) => (rest, Except.ok apt)
  | none => (appts, Except.error "Appointment not found")

/-- Decimal digit characters of `n`, most significant first.  This is the
mathematical description of what `Nat.repr` (Python's `str` on a
non-negative integer) produces; `natRepr_eq_decimalDigits` below proves the
agreement, and injectivity of `Nat.repr` follows. -/
def decimalDigits (n : Nat) : List Char :=
  if _h : n < 10 then [Nat.digitChar n]
  else decimalDigits (n / 10) ++ [Nat.digitChar (n % 10)]
decreasing_by exact Nat.div_lt_self (by omega) (by omega)

/-- The ids `str(1), …, str(n)` that `MockCalendar.book_appointment` assigns
to a store grown purely by booking. -/
def seqIds (n : Nat) : List String :=
  (List.range n).map (fun i => toString (i + 1))

/-! ### Text understanding (`determine_intent`, `extract_date_time_info`) -/

/-- The ASCII whitespace characters matched by Python's `str.strip()` and
by the regex class `\s`. -/
def isPySpace (c : Char) : Bool :=
  c = ' ' || c = '\t' || c = '\n' || c = '\x0d' || c = '\x0b' || c = '\x0c'

/-- `str.lower()` on ASCII text (`Char.toLower` lower-cases exactly the
ASCII upper-case letters). -/
def pyLower (text : List Char) : List Char := text.map Char.toLower

/-- Python's substring operator `needle in haystack`. -/
def isSubstringOf (needle : List Char) (haystack : List Char) : Bool :=
  match haystack with
  | [] => needle.isEmpty
  | _ :: rest => needle.isPrefixOf haystack || isSubstringOf needle rest

/-- `str.strip()`: drop whitespace from both ends. -/
def pyStrip (text : List Char) : List Char :=
  ((text.dropWhile isPySpace).reverse.dropWhile isPySpace).reverse

/-- The literal digit texts "1" … "10" recognised as slot selections. -/
def slotDigits : List (List Char) :=
  ["1", "2", "3", "4", "5", "6", "7", "8", "9", "10"].map String.toList

/-- Confirmation keywords (both backends). -/
def confirmationWords : List (List Char) :=
  ["confirm", "yes", "sounds good", "that works", "book it", "ok"].map String.toList

/-- Booking keywords (both backends). -/
def bookingWords : List (List Char) :=
  ["book", "schedule", "appointment", "meeting"].map String.toList

/-- Availability keywords of the main backend (`backend/backend.py`). -/
def availabilityWords : List (List Char) :=
  ["available", "free", "slots", "times", "check availability", "show me"].map
    String.toList

/-- Availability keywords of the duplicated backend (`backend.py`): the same
list without "show me". -/
def availabilityWordsDup : List (List Char) :=
  ["available", "free", "slots", "times", "check availability"].map String.toList

/-- Cancellation/modification keywords (both backends). -/
def modifyWords : List (List Char) :=
  ["cancel", "change", "reschedule"].map String.toList

/-- `determine_intent(text, conversation_phase)` of `backend/backend.py`:
priority-ordered keyword matching, with the digit and confirmation rules
gated on the conversation phase. -/
def determine_intent (text : List Char) (conversation_phase : String) : String :=
  let text_lower := pyStrip (pyLower text)
  if conversation_phase = "awaiting_slot_selection" ∧ slotDigits.contains text_lower then
    "select_slot"
  else if conversation_phase = "awaiting_confirmation" ∧
      confirmationWords.any (fun w => isSubstringOf w text_lower) then
    "confirm_booking"
  else if bookingWords.any (fun w => isSubstringOf w text_lower) then
    "book_appointment"
  else if availabilityWords.any (fun w => isSubstringOf w text_lower) then
    "check_availability"
  else if modifyWords.any (fun w => isSubstringOf w text_lower) then
    "modify_booking"
  else
    "general_inquiry"

/-- `determine_intent(text)` of the duplicated `backend.py`: the same
keyword matching but with no phase argument (digits and confirmation words
always fire) and without "show me" in the availability keywords. -/
def determine_intent_dup (text : List Char) : String :=
  let text_lower := pyStrip (pyLower text)
  if slotDigits.contains text_lower then
    "select_slot"
  else if confirmationWords.any (fun w => isSubstringOf w text_lower) then
    "confirm_booking"
  else if bookingWords.any (fun w => isSubstringOf w text_lower) then
    "book_appointment"
  else if availabilityWordsDup.any (fun w => isSubstringOf w text_lower) then
    "check_availability"
  else if modifyWords.any (fun w => isSubstringOf w text_lower) then
    "modify_booking"
  else
    "general_inquiry"

/-- The date cue patterns of `extract_date_time_info`, in dict insertion
order; every pattern is a literal, so `re.search` is a substring test. -/
def datePatterns : List (List Char × String) :=
  [("tomorrow".toList, "tomorrow"), ("next week".toList, "next_week"),
   ("monday".toList, "monday"), ("tuesday".toList, "tuesday"),
   ("wednesday".toList, "wednesday"), ("thursday".toList, "thursday"),
   ("friday".toList, "friday"), ("saturday".toList, "saturday"),
   ("sunday".toList, "sunday")]

/-- After the digit part of a time regex: match `\s*(am|pm)` and return the
consumed characters.  `\s*` can be taken maximal-munch without backtracking
because `a`/`p` are not whitespace. -/
def matchSpacesAmPm (cs : List Char) : Option (List Char) :=
  let sp := cs.takeWhile isPySpace
  match cs.dropWhile isPySpace with
  | 'a' :: 'm' :: _ => some (sp ++ ['a', 'm'])
  | 'p' :: 'm' :: _ => some (sp ++ ['p', 'm'])
  | _ => none

/-- Try the regex `(\d{1,2})\s*(am|pm)` anchored at the head of `cs`,
returning the matched text.  `\d{1,2}` is greedy; retrying with one digit
after a two-digit failure cannot succeed (the next character would be a
digit, which neither `\s` nor `a`/`p` accepts), so no backtracking is
needed. -/
def tryTime1At (cs : List Char) : Option (List Char) :=
  match cs with
  | c :: rest =>
    if c.isDigit then
      match rest with
      | c2 :: rest2 =>
        if c2.isDigit then (matchSpacesAmPm rest2).map (fun m => c :: c2 :: m)
        else (matchSpacesAmPm rest).map (fun m => c :: m)
      | [] => none
    else none
  | [] => none

/-- Leftmost match of `(\d{1,2})\s*(am|pm)` (`re.search` semantics). -/
def searchTime1 : List Char → Option (List Char)
  | [] => none
  | c :: rest =>
    match tryTime1At (c :: rest) with
    | some m => some m
    | none => searchTime1 rest

/-- Match `:(\d{2})\s*(am|pm)` after an already-consumed digit prefix. -/
def tryColonPart (pre : List Char) : List Char → Option (List Char)
  | ':' :: d1 :: d2 :: rest =>
    if d1.isDigit ∧ d2.isDigit then
      (matchSpacesAmPm rest).map (fun m => pre ++ ':' :: d1 :: d2 :: m)
    else none
  | _ => none

/-- Try the regex `(\d{1,2}):(\d{2})\s*(am|pm)` anchored at the head of
`cs`.  When two digits are available the colon must follow them (a colon is
not a digit, so the one-digit alternative cannot succeed either). -/
def tryTime2At (cs : List Char) : Option (List Char) :=
  match cs with
  | c :: rest =>
    if c.isDigit then
      match rest with
      | c2 :: rest2 =>
        if c2.isDigit then tryColonPart [c, c2] rest2
        else tryColonPart [c] rest
      | [] => none
    else none
  | [] => none

/-- Leftmost match of `(\d{1,2}):(\d{2})\s*(am|pm)`. -/
def searchTime2 : List Char → Option (List Char)
  | [] => none
  | c :: rest =>
    match tryTime2At (c :: rest) with
    | some m => some m
    | none => searchTime2 rest

/-- The time-pattern scan of `extract_date_time_info`: the two specific-time
regexes keep the matched text, the period keywords keep their tag; the scan
stops at the first pattern that matches. -/
def extractTimePreference (text_lower : List Char) : Option String :=
  match searchTime1 text_lower with
  | some m => some m.asString
  | none =>
    match searchTime2 text_lower with
    | some m => some m.asString
    | none =>
      if isSubstringOf "morning".toList text_lower then some "morning"
      else if isSubstringOf "afternoon".toList text_lower then some "afternoon"
      else if isSubstringOf "evening".toList text_lower then some "evening"
      else none

/-- Purpose keywords, in scan order. -/
def purposeKeywords : List String :=
  ["meeting", "consultation", "call", "interview", "demo", "appointment"]

/-- The preference bag built by `extract_date_time_info`: a key absent from
the Python dict is `none` here. -/
structure ExtractedInfo where
  date_preference : Option String
  time_preference : Option String
  purpose : Option String
deriving DecidableEq

/-- `extract_date_time_info(text)`: first matching date cue, first matching
time cue, first matching purpose keyword, each scanned over the lower-cased
text. -/
def extract_date_time_info (text : List Char) : ExtractedInfo :=
  let text_lower := pyLower text
  { date_preference :=
      (datePatterns.find? (fun p => isSubstringOf p.1 text_lower)).map (fun p => p.2),
    time_preference := extractTimePreference text_lower,
    purpose := purposeKeywords.find? (fun k => isSubstringOf k.toList text_lower) }

/-- The Python dict merge of `analyze_input`:
keys present in the new bag overwrite, absent keys keep the old value. -/
def mergeInfo (old new : ExtractedInfo) : ExtractedInfo :=
  { date_preference := match new.date_preference with
      | some v => some v
      | none => old.date_preference,
    time_preference := match new.time_preference with
      | some v => some v
      | none => old.time_preference,
    purpose := match new.purpose with
      | some v => some v
      | none => old.purpose }

/-- Digit run continuation for Python `int()`: single underscores are
allowed between digits only. -/
def pyDigitsCont (acc : Nat) : List Char → Option Nat
  | [] => some acc
  | '_' :: c :: rest =>
    if c.isDigit then pyDigitsCont (acc * 10 + (c.toNat - 48)) rest else none
  | c :: rest =>
    if c.isDigit then pyDigitsCont (acc * 10 + (c.toNat - 48)) rest else none

/-- A non-empty digit run (with Python's underscore rule) and its value. -/
def pyDigitsVal : List Char → Option Nat
  | [] => none
  | c :: rest => if c.isDigit then pyDigitsCont (c.toNat - 48) rest else none

/-- Python `int(text)` on already-stripped ASCII text: an optional single
sign followed by a non-empty digit run; anything else raises `ValueError`,
modelled as `none`. -/
def pyParseInt (text : List Char) : Option Int :=
  match text with
  | '+' :: rest => (pyDigitsVal rest).map (fun n => (n : Int))
  | '-' :: rest => (pyDigitsVal rest).map (fun n => -(n : Int))
  | _ => (pyDigitsVal text).map (fun n => (n : Int))

/-! ### Window resolution (`get_date_range_from_preference`) -/

/-- The `weekdays` list of the source, index = Python weekday number. -/
def weekdayNames : List String :=
  ["monday", "tuesday", "wednesday", "thursday", "friday", "saturday", "sunday"]

/-- `get_date_range_from_preference(preference)`, with the implicit
`datetime.now()` made an explicit argument `now`. -/
def get_date_range_from_preference (now : Nat) (preference : String) :
    Nat × Nat :=
  if preference = "tomorrow" then
    let start := replaceHour (now + oneDay) 9
    (start, replaceHour start 17)
  else if preference = "next_week" then
    let days_ahead := 7 - weekdayOf now
    let start := replaceHour (now + days_ahead * oneDay) 9
    (start, start + 4 * oneDay + 8 * 60)
  else if preference ∈ weekdayNames then
    let target_weekday := weekdayNames.indexOf preference
    let d0 : Int := (target_weekday : Int) - (weekdayOf now : Int)
    let days_ahead : Int := if d0 ≤ 0 then d0 + 7 else d0
    let start := replaceHour (now + days_ahead.toNat * oneDay) 9
    (start, replaceHour start 17)
  else
    -- Default: next business day
    let start := replaceHour (now + oneDay) 9
    (start, start + 2 * oneDay + 8 * 60)

/-! ### Conversation state and the booking workflow (`backend/backend.py`) -/

/-- One entry of the `messages` history: a `HumanMessage` or an `AIMessage`
with its text content. -/
inductive Msg
  | human (content : List Char)
  | ai (content : List Char)
deriving DecidableEq

/-- The text content of a message. -/
def Msg.content : Msg → List Char
  | .human c => c
  | .ai c => c

/-- The `ConversationState` TypedDict of `backend/backend.py`. -/
structure ConversationState where
  messages : List Msg
  user_intent : String
  extracted_info : ExtractedInfo
  available_slots : List Slot
  selected_slot : Option Slot
  booking_confirmed : Bool
  conversation_phase : String
deriving DecidableEq

/-- The state `chat_endpoint` creates for an unseen conversation id. -/
def freshState : ConversationState :=
  { messages := [], user_intent := "",
    extracted_info :=
      { date_preference := none, time_preference := none, purpose := none },
    available_slots := [], selected_slot := none,
    booking_confirmed := false, conversation_phase := "initial" }

/-- `state["messages"][-1].content`.  The source raises `IndexError` on an
empty history; no reachable call does that (the endpoint appends the user
message before invoking the workflow), and the model returns `[]` there for
totality. -/
def lastContent (msgs : List Msg) : List Char :=
  (msgs.getLast?).elim [] Msg.content

/-- The `analyze_input` node: classify the last message with the current
phase and merge the extracted preferences. -/
def analyze_input (state : ConversationState) : ConversationState :=
  let last_message := lastContent state.messages
  let intent := determine_intent last_message state.conversation_phase
  let info := extract_date_time_info last_message
  { state with user_intent := intent,
               extracted_info := mergeInfo state.extracted_info info }

/-- The `check_availability` node: resolve the window from the date
preference (default: tomorrow 09:00–17:00), query the shared calendar, and
enter the slot-selection phase. -/
def check_availability (fmt : Nat → String) (now : Nat)
    (cal : List Appt) (state : ConversationState) : ConversationState :=
  let win :=
    match state.extracted_info.date_preference with
    | some pref => get_date_range_from_preference now pref
    | none =>
      let start := replaceHour (now + oneDay) 9
      (start, replaceHour start 17)
  { state with available_slots := get_availability fmt cal win.1 win.2,
               conversation_phase := "awaiting_slot_selection" }

/-- The `handle_slot_selection` node: 1-based numeric selection.  A
`ValueError` from `int()` is caught locally (`none` branch); an out-of-range
number changes nothing.  The `none` case of the list lookup is unreachable
under the range guard.  The `.copy()` of the source is value semantics
here. -/
def handle_slot_selection (state : ConversationState) : ConversationState :=
  let last_message := pyStrip (lastContent state.messages)
  match pyParseInt last_message with
  | some slot_number =>
    if 1 ≤ slot_number ∧ slot_number ≤ (state.available_slots.length : Int) then
      match state.available_slots.get? ((slot_number - 1).toNat) with
      | some selected_slot =>
        { state with selected_slot := some selected_slot,
                     conversation_phase := "awaiting_confirmation" }
      | none => state
    else state
  | none => state

/-- Python `str.title()` on ASCII text: upper-case a letter that follows a
non-letter, lower-case the other letters. -/
def pyTitleGo (prevAlpha : Bool) : List Char → List Char
  | [] => []
  | c :: rest =>
    if c.isAlpha then
      (if prevAlpha then c.toLower else c.toUpper) :: pyTitleGo true rest
    else c :: pyTitleGo false rest

/-- Python `str.title()`. -/
def pyTitle (s : String) : String := (pyTitleGo false s.toList).asString

/-- The `confirm_booking` node: book if a slot is selected, else ask the
user to choose one.  The source's try/except around the booking cannot fire
in the model (booking is total), and its `_datetime_start` / ISO-string
fallback collapse to the single `start` value. -/
def confirm_booking (cal : List Appt) (state : ConversationState) :
    ConversationState × List Appt :=
  match state.selected_slot with
  | some selected_slot =>
    let purpose := state.extracted_info.purpose.getD "meeting"
    let title := "Scheduled " ++ pyTitle purpose
    let booked := book_appointment cal title selected_slot.start 1
    let response := "✅ Booking confirmed! Your " ++ purpose
        ++ " is scheduled for " ++ selected_slot.formatted
        ++ ". Appointment ID: " ++ booked.2.id
    ({ state with booking_confirmed := true,
                  available_slots := [],
                  selected_slot := none,
                  user_intent := "",
                  conversation_phase := "booking_complete",
                  messages := state.messages ++ [Msg.ai response.toList] },
     booked.1)
  | none =>
    ({ state with messages := state.messages
        ++ [Msg.ai "❌ No slot selected. Please choose a slot first.".toList] },
     cal)

/-- The numbered slot listing of `generate_response`
(`enumerate(available_slots, 1)`). -/
def slotListing (slots : List Slot) : String :=
  String.join (slots.enum.map (fun p =>
    toString (p.1 + 1) ++ ". " ++ p.2.formatted ++ "\n"))

/-- The `generate_response` node of `backend/backend.py`: fixed response
templates keyed on the intent; the fallback branch also resets the phase to
"initial". -/
def generate_response (state : ConversationState) : ConversationState :=
  let intent := state.user_intent
  let available_slots := state.available_slots
  let selected_slot := state.selected_slot
  if intent = "book_appointment" ∨ intent = "check_availability" then
    let response :=
      if available_slots ≠ [] then
        "I found some available time slots for you:\n\n"
          ++ slotListing available_slots
          ++ "\nPlease select a slot by clicking the button or typing the number (e.g., \x271\x27 for the first slot)."
      else
        "Let me check availability for you. Please specify your preferred date and time."
    { state with messages := state.messages ++ [Msg.ai response.toList] }
  else if intent = "select_slot" then
    let response :=
      match selected_slot with
      | some s => "Perfect! You\x27ve selected: " ++ s.formatted
          ++ "\n\nWould you like to confirm this booking? Click \x27Confirm\x27 or reply with \x27yes\x27."
      | none => "I didn\x27t find that slot. Please choose a number from the available options above."
    { state with messages := state.messages ++ [Msg.ai response.toList] }
  else if intent = "confirm_booking" then
    let response :=
      match selected_slot with
      | some _ => "Processing your booking confirmation..."
      | none => "Please select a time slot first before confirming."
    { state with messages := state.messages ++ [Msg.ai response.toList] }
  else
    let response := "Hello! I\x27m here to help you book appointments. You can say things like:\n- \x27book meeting tomorrow\x27\n- \x27check availability next week\x27\n- \x27schedule call monday\x27"
    { state with conversation_phase := "initial",
                 messages := state.messages ++ [Msg.ai response.toList] }

/-- The `should_check_availability` routing function: the conditional edge
out of the analyze node. -/
def should_check_availability (state : ConversationState) : String :=
  let intent := state.user_intent
  if intent = "book_appointment" ∨ intent = "check_availability" then
    "check_availability"
  else if intent = "select_slot" then
    "handle_selection"
  else if intent = "confirm_booking" then
    if state.selected_slot.isSome then "confirm_booking" else "respond"
  else
    "respond"

/-- One `booking_agent.invoke` call on a state whose last message is the
inbound utterance: analyze, route, run the chosen node, and — except after
`confirm_booking`, which edges directly to END — generate the response.
Returns the updated state and the updated shared calendar. -/
def invoke_workflow (fmt : Nat → String) (now : Nat)
    (cal : List Appt) (state : ConversationState) :
    ConversationState × List Appt :=
  let st := analyze_input state
  let route := should_check_availability st
  if route = "check_availability" then
    (generate_response (check_availability fmt now cal st), cal)
  else if route = "handle_selection" then
    (generate_response (handle_slot_selection st), cal)
  else if route = "confirm_booking" then
    confirm_booking cal st
  else
    (generate_response st, cal)

/-- Lookup in the global `conversations` dict. -/
def lookupConv (store : List (String × ConversationState)) (cid : String) :
    Option ConversationState :=
  (store.find? (fun p => p.1 = cid)).map (fun p => p.2)

/-- Write-back into the `conversations` dict: overwrite the existing key or
append a new binding. -/
def putConv : List (String × ConversationState) → String → ConversationState →
    List (String × ConversationState)
  | [], cid, st => [(cid, st)]
  | (k, v) :: rest, cid, st =>
    if k = cid then (cid, st) :: rest else (k, v) :: putConv rest cid st

/-- The `ChatResponse` pydantic model. -/
structure ChatResponse where
  response : List Char
  available_slots : List Slot
  booking_confirmed : Bool
  conversation_id : String
deriving DecidableEq

/-- One turn of `chat_endpoint`, mirroring the source's order of effects:
the session is created if absent, the inbound message is appended to the
session's history in place — that mutation hits the object stored in
`conversations` and is therefore already persisted — and only then is the
workflow invoked.  The invocation is passed as a parameter `wf` so that a
turn on which it raises an unexpected exception can be analysed; the
fault-free instantiation is `fun st cal => Except.ok (invoke_workflow fmt now cal st)`.
On success the workflow result is written back and a `ChatResponse`
returned; on an exception the handler re-raises `HTTPException(500, str(e))`
(`Except.error`), with the already-performed history append left in
place. -/
def chat_endpoint
    (wf : ConversationState → List Appt →
      Except String (ConversationState × List Appt))
    (store : List (String × ConversationState)) (cal : List Appt)
    (conversation_id : String) (message : List Char) :
    List (String × ConversationState) × List Appt × Except String ChatResponse :=
  let state := (lookupConv store conversation_id).getD freshState
  let state1 := { state with messages := state.messages ++ [Msg.human message] }
  match wf state1 cal with
  | Except.ok (result, cal2) =>
    (putConv store conversation_id result, cal2,
     Except.ok
       { response :=
           if result.messages.isEmpty then
             "I\x27m ready to help you book an appointment!".toList
           else lastContent result.messages,
         available_slots := result.available_slots,
         booking_confirmed := result.booking_confirmed,
         conversation_id := conversation_id })
  | Except.error e =>
    (putConv store conversation_id state1, cal, Except.error e)

/-! ### Basic properties of the availability loop -/

theorem availLoop_fuel (appts : List Appt) (fmt : Nat → String) (ed : Nat) :
    ∀ f₁ f₂ c, ed - c ≤ f₁ → ed - c ≤ f₂ →
      availLoop appts fmt ed f₁ c = availLoop appts fmt ed f₂ c := by
  intro f₁
  induction f₁ with
  | zero =>
    intro f₂ c h₁ _
    have hc : ¬ c < ed := by omega
    cases f₂ with
    | zero => rfl
    | succ f₂ => simp [availLoop, hc]
  | succ f₁ ih =>
    intro f₂ c h₁ h₂
    cases f₂ with
    | zero =>
      have hc : ¬ c < ed := by omega
      simp [availLoop, hc]
    | succ f₂ =>
      by_cases hc : c < ed
      · have hrec : availLoop appts fmt ed f₁ (c + 60)
            = availLoop appts fmt ed f₂ (c + 60) := ih f₂ (c + 60) (by omega) (by omega)
        simp [availLoop, hc, hrec]
      · simp [availLoop, hc]

theorem availLoop_mem_start_le (appts : List Appt) (fmt : Nat → String) (ed : Nat) :
    ∀ fuel c s, s ∈ availLoop appts fmt ed fuel c → c ≤ s.start := by
  intro fuel
  induction fuel with
  | zero => intro c s h; simp [availLoop] at h
  | succ fuel ih =>
    intro c s h
    by_cases hc : c < ed
    · simp only [availLoop, if_pos hc] at h
      split at h
      · split at h
        · have := ih (c + 60) s h; omega
        · rcases List.mem_cons.mp h with h | h
          · subst h; exact Nat.le_refl _
          · have := ih (c + 60) s h; omega
      · have := ih (c + 60) s h; omega
    · simp [availLoop, hc] at h

theorem availLoop_mem (appts : List Appt) (fmt : Nat → String) (ed : Nat) :
    ∀ fuel c s, s ∈ availLoop appts fmt ed fuel c →
      (9 ≤ hourOf s.start ∧ hourOf s.start < 17) ∧ weekdayOf s.start < 5 ∧
      s.stop = s.start + 60 ∧ s.start % 60 = c % 60 ∧
      ∀ apt ∈ appts, ¬ (s.start < apt.stop ∧ s.stop > apt.start) := by
  intro fuel
  induction fuel with
  | zero => intro c s h; simp [availLoop] at h
  | succ fuel ih =>
    intro c s h
    by_cases hc : c < ed
    · simp only [availLoop, if_pos hc] at h
      split at h
      · rename_i hbiz
        split at h
        · obtain ⟨h1, h2, h3, h4, h5⟩ := ih (c + 60) s h
          exact ⟨h1, h2, h3, by omega, h5⟩
        · rcases List.mem_cons.mp h with h | h
          · subst h
            refine ⟨⟨hbiz.1, hbiz.2.1⟩, hbiz.2.2, rfl, rfl, ?_⟩
            rename_i hconf
            intro apt hapt hover
            have : (appts.any (fun apt =>
                decide (c < apt.stop) && decide (c + 60 > apt.start))) = true := by
              rw [List.any_eq_true]
              exact ⟨apt, hapt, by simp [hover.1, hover.2]⟩
            exact hconf this
          · obtain ⟨h1, h2, h3, h4, h5⟩ := ih (c + 60) s h
            exact ⟨h1, h2, h3, by omega, h5⟩
      · obtain ⟨h1, h2, h3, h4, h5⟩ := ih (c + 60) s h
        exact ⟨h1, h2, h3, by omega, h5⟩
    · simp [availLoop, hc] at h

theorem availLoop_pairwise (appts : List Appt) (fmt : Nat → String) (ed : Nat) :
    ∀ fuel c, List.Pairwise (fun a b : Slot => a.start < b.start)
      (availLoop appts fmt ed fuel c) := by
  intro fuel
  induction fuel with
  | zero => intro c; simp [availLoop]
  | succ fuel ih =>
    intro c
    by_cases hc : c < ed
    · simp only [availLoop, if_pos hc]
      split
      · split
        · exact ih (c + 60)
        · refine List.Pairwise.cons ?_ (ih (c + 60))
          intro s hs
          have := availLoop_mem_start_le appts fmt ed fuel (c + 60) s hs
          show c < s.start
          omega
      · exact ih (c + 60)
    · simp [availLoop, hc]

/-! ### Decimal numerals: `Nat.repr` agrees with `decimalDigits` and is
injective, so the ids `str(1), str(2), …` of a cancellation-free store never
collide. -/

theorem decimalDigits_eq_small {n : Nat} (h : n < 10) :
    decimalDigits n = [Nat.digitChar n] := by
  conv_lhs => rw [decimalDigits]
  rw [dif_pos h]

theorem decimalDigits_eq_large {n : Nat} (h : ¬ n < 10) :
    decimalDigits n = decimalDigits (n / 10) ++ [Nat.digitChar (n % 10)] := by
  conv_lhs => rw [decimalDigits]
  rw [dif_neg h]

theorem toDigitsCore_eq_decimalDigits :
    ∀ (fuel n : Nat) (ds : List Char), n < fuel →
      Nat.toDigitsCore 10 fuel n ds = decimalDigits n ++ ds := by
  intro fuel
  induction fuel with
  | zero => intro n ds h; omega
  | succ fuel ih =>
    intro n ds h
    show (if n / 10 = 0 then Nat.digitChar (n % 10) :: ds
          else Nat.toDigitsCore 10 fuel (n / 10) (Nat.digitChar (n % 10) :: ds))
        = decimalDigits n ++ ds
    by_cases h10 : n < 10
    · have hq : n / 10 = 0 := by omega
      have hm : n % 10 = n := by omega
      rw [if_pos hq, decimalDigits_eq_small h10, hm]
      rfl
    · have hq : ¬ n / 10 = 0 := by omega
      rw [if_neg hq, ih (n / 10) _ (by omega), decimalDigits_eq_large h10,
        List.append_assoc]
      rfl

theorem natRepr_eq_decimalDigits (n : Nat) :
    Nat.repr n = (decimalDigits n).asString := by
  show (Nat.toDigitsCore 10 (n + 1) n []).asString = (decimalDigits n).asString
  rw [toDigitsCore_eq_decimalDigits (n + 1) n [] (by omega), List.append_nil]

theorem decimalDigits_ne_nil (n : Nat) : decimalDigits n ≠ [] := by
  by_cases h : n < 10
  · rw [decimalDigits_eq_small h]; simp
  · rw [decimalDigits_eq_large h]; simp

theorem decimalDigits_injective :
    ∀ m n : Nat, decimalDigits m = decimalDigits n → m = n := by
  have hdc : ∀ a, a < 10 → ∀ b, b < 10 → Nat.digitChar a = Nat.digitChar b → a = b := by
    decide
  intro m
  induction m using Nat.strong_induction_on with
  | _ m ih =>
    intro n h
    by_cases hm : m < 10 <;> by_cases hn : n < 10
    · rw [decimalDigits_eq_small hm, decimalDigits_eq_small hn] at h
      exact hdc m hm n hn (List.singleton_injective h)
    · rw [decimalDigits_eq_small hm, decimalDigits_eq_large hn] at h
      have hlen := congrArg List.length h
      have hne := decimalDigits_ne_nil (n / 10)
      rw [List.length_singleton, List.length_append, List.length_singleton] at hlen
      have := List.length_pos.mpr hne
      omega
    · rw [decimalDigits_eq_large hm, decimalDigits_eq_small hn] at h
      have hlen := congrArg List.length h
      have hne := decimalDigits_ne_nil (m / 10)
      rw [List.length_singleton, List.length_append, List.length_singleton] at hlen
      have := List.length_pos.mpr hne
      omega
    · rw [decimalDigits_eq_large hm, decimalDigits_eq_large hn] at h
      obtain ⟨h₁, h₂⟩ := List.append_inj' h (by rfl)
      have hq : m / 10 = n / 10 :=
        ih (m / 10) (Nat.div_lt_self (by omega) (by omega)) (n / 10) h₁
      have hr : m % 10 = n % 10 :=
        hdc (m % 10) (by omega) (n % 10) (by omega) (List.singleton_injective h₂)
      omega

theorem natRepr_injective : ∀ m n : Nat, Nat.repr m = Nat.repr n → m = n := by
  intro m n h
  rw [natRepr_eq_decimalDigits, natRepr_eq_decimalDigits] at h
  apply decimalDigits_injective
  have := congrArg String.toList h
  simpa [List.asString] using this

theorem natToString_injective : ∀ m n : Nat, toString m = toString n → m = n :=
  natRepr_injective

/-! ### Cancellation -/

theorem removeFirstById_eq_none (appts : List Appt) (aid : String)
    (h : ∀ apt ∈ appts, apt.id ≠ aid) : removeFirstById appts aid = none := by
  induction appts with
  | nil => rfl
  | cons apt rest ih =>
    have h1 : apt.id ≠ aid := h apt (List.mem_cons_self apt rest)
    rw [removeFirstById, if_neg h1, ih (fun b hb => h b (List.mem_cons_of_mem _ hb))]
    rfl

theorem removeFirstById_first_match (pre : List Appt) (apt : Appt)
    (post : List Appt) (aid : String) (hpre : ∀ b ∈ pre, b.id ≠ aid)
    (hm : apt.id = aid) :
    removeFirstById (pre ++ apt :: post) aid = some (pre ++ post, apt) := by
  induction pre with
  | nil => simp [removeFirstById, hm]
  | cons b rest ih =>
    have h1 : b.id ≠ aid := hpre b (List.mem_cons_self b rest)
    rw [List.cons_append, removeFirstById, if_neg h1,
      ih (fun x hx => hpre x (List.mem_cons_of_mem _ hx))]
    rfl

theorem seqIds_nodup (n : Nat) : (seqIds n).Nodup := by
  refine List.Nodup.map ?_ (List.nodup_range n)
  intro a b hab
  have := natToString_injective (a + 1) (b + 1) hab
  omega

theorem seqIds_succ (n : Nat) : seqIds (n + 1) = seqIds n ++ [toString (n + 1)] := by
  unfold seqIds
  rw [List.range_succ, List.map_append]
  rfl

/-! ### Claim theorems -/

/-- C10: for every time window and appointment list, the slot list returned
by the availability engine has at most 10 entries, is exactly the first 10
accepted candidates of the full hourly scan, and is in chronological order.
The function is total (it returns a plain list, an empty one for an empty
window), so an empty result is an ordinary value and not a failure. -/
theorem C10_slot_list_capped (fmt : Nat → String) (appts : List Appt)
    (sd ed : Nat) :
    (get_availability fmt appts sd ed).length ≤ 10 ∧
    get_availability fmt appts sd ed
      = (availLoop appts fmt ed (ed - sd) sd).take 10 ∧
    List.Pairwise (fun a b : Slot => a.start < b.start)
      (get_availability fmt appts sd ed) := by
  refine ⟨?_, rfl, ?_⟩
  · exact List.length_take_le 10 _
  · exact List.Pairwise.sublist (List.take_sublist _ _)
      (availLoop_pairwise appts fmt ed (ed - sd) sd)

/-- C2 (amended): every slot returned by the availability engine starts at an
hour-of-day in `[9, 17)` on a business day (Monday–Friday), lasts exactly one
hour, and overlaps no appointment of the input list under the open-interval
test `candidateStart < apptEnd ∧ candidateEnd > apptStart`.  Its end stays at
or before 17:00 of the same day whenever the window start is aligned to the
hour; an unaligned window start shifts every candidate by the same sub-hour
offset, so a slot may end strictly after 17:00 (`C2_counterexample`). -/
theorem C2_slots_business_hours (fmt : Nat → String) (appts : List Appt)
    (sd ed : Nat) (s : Slot) (hs : s ∈ get_availability fmt appts sd ed) :
    ((9 ≤ hourOf s.start ∧ hourOf s.start < 17) ∧ weekdayOf s.start < 5 ∧
      s.stop = s.start + 60 ∧
      ∀ apt ∈ appts, ¬ (s.start < apt.stop ∧ s.stop > apt.start)) ∧
    (minuteOf sd = 0 → s.stop ≤ dayIndex s.start * 1440 + 17 * 60) := by
  have hs' : s ∈ availLoop appts fmt ed (ed - sd) sd := List.take_subset _ _ hs
  obtain ⟨h1, h2, h3, h4, h5⟩ := availLoop_mem appts fmt ed (ed - sd) sd s hs'
  refine ⟨⟨h1, h2, h3, h5⟩, ?_⟩
  intro hmin
  have h9 := h1.1
  have h17 := h1.2
  unfold hourOf at h9 h17
  unfold minuteOf at hmin
  unfold weekdayOf dayIndex at *
  omega

/-- Witness for C2: the window Monday 09:00–10:00 over an empty appointment
list yields exactly the slot 09:00–10:00, and the theorem applies to it. -/
theorem C2_witness :
    (⟨540, 600, ""⟩ : Slot) ∈ get_availability (fun _ => "") [] 540 600 ∧
    (((9 ≤ hourOf 540 ∧ hourOf 540 < 17) ∧ weekdayOf 540 < 5 ∧
        (600 : Nat) = 540 + 60 ∧
        ∀ apt ∈ ([] : List Appt), ¬ ((540 : Nat) < apt.stop ∧ (600 : Nat) > apt.start)) ∧
      (minuteOf 540 = 0 → (600 : Nat) ≤ dayIndex 540 * 1440 + 17 * 60)) :=
  have hmem : (⟨540, 600, ""⟩ : Slot) ∈ get_availability (fun _ => "") [] 540 600 := by
    decide
  ⟨hmem, C2_slots_business_hours (fun _ => "") [] 540 600 ⟨540, 600, ""⟩ hmem⟩

/-- Counterexample for C2 as stated: starting the window at Monday 16:30
(minute 990 of the reference week) produces the slot 16:30–17:30, whose end
17:30 exceeds 17:00 of its day — the claim's "its end does not exceed 17:00"
is false for windows not aligned to the hour. -/
theorem C2_counterexample :
    ∃ s ∈ get_availability (fun _ => "") [] 990 991,
      dayIndex s.start * 1440 + 17 * 60 < s.stop := by
  decide

/-- C9: cancelling an id that is present removes exactly the first matching
appointment and returns it; cancelling an absent id reports the 404 error
`"Appointment not found"` and leaves the appointment list unchanged. -/
theorem C9_cancel_spec :
    (∀ (appts : List Appt) (aid : String), (∀ apt ∈ appts, apt.id ≠ aid) →
      cancel_appointment appts aid
        = (appts, Except.error "Appointment not found")) ∧
    (∀ (pre : List Appt) (apt : Appt) (post : List Appt) (aid : String),
      (∀ b ∈ pre, b.id ≠ aid) → apt.id = aid →
      cancel_appointment (pre ++ apt :: post) aid
        = (pre ++ post, Except.ok apt)) := by
  constructor
  · intro appts aid h
    unfold cancel_appointment
    rw [removeFirstById_eq_none appts aid h]
  · intro pre apt post aid hpre hm
    unfold cancel_appointment
    rw [removeFirstById_first_match pre apt post aid hpre hm]

/-- Witness for C9: on the initial two-appointment calendar, cancelling the
unknown id "7" is a 404 that changes nothing, and cancelling "2" removes
exactly the second appointment and returns it. -/
theorem C9_witness :
    cancel_appointment (initial_appointments 0) "7"
      = (initial_appointments 0, Except.error "Appointment not found") ∧
    cancel_appointment (initial_appointments 0) "2"
      = ([{ id := "1", title := "Team Meeting", start := 1560, stop := 1620 }],
          Except.ok { id := "2", title := "Client Call", start := 3120, stop := 3180 }) :=
  ⟨C9_cancel_spec.1 (initial_appointments 0) "7" (by decide),
   C9_cancel_spec.2
     [{ id := "1", title := "Team Meeting", start := 1560, stop := 1620 }]
     { id := "2", title := "Client Call", start := 3120, stop := 3180 } [] "2"
     (by decide) rfl⟩

/-- C1 (amended): `book_appointment` assigns the id `str(len(appointments)+1)`.
On a store whose ids are exactly `str(1) … str(len)` — as holds for the
initial calendar and is preserved by every cancellation-free booking — the
new id is the decimal successor of the current maximum, the id sequence stays
`str(1) … str(len+1)`, all ids are pairwise distinct, and the new id differs
from every id already present.  After a cancellation the length-based scheme
can re-assign an id that is still present (`C1_counterexample`), so the
original claim's "no id is ever assigned twice, even after a cancellation"
does not hold of the code. -/
theorem C1_booking_ids (appts : List Appt) (title : String) (start dur : Nat)
    (h : appts.map Appt.id = seqIds appts.length) :
    (book_appointment appts title start dur).2.id = toString (appts.length + 1) ∧
    (book_appointment appts title start dur).1.map Appt.id
      = seqIds (appts.length + 1) ∧
    ((book_appointment appts title start dur).1.map Appt.id).Nodup ∧
    ∀ old ∈ appts, old.id ≠ (book_appointment appts title start dur).2.id := by
  have hfst : (book_appointment appts title start dur).1
      = appts ++ [{ id := toString (appts.length + 1), title := title,
                    start := start, stop := start + dur * 60 }] := rfl
  have hmap : (book_appointment appts title start dur).1.map Appt.id
      = seqIds (appts.length + 1) := by
    rw [hfst, List.map_append, h, seqIds_succ]
    rfl
  refine ⟨rfl, hmap, ?_, ?_⟩
  · rw [hmap]; exact seqIds_nodup _
  · intro old hold heq
    have hidmem : old.id ∈ seqIds appts.length := by
      rw [← h]; exact List.mem_map_of_mem Appt.id hold
    obtain ⟨j, hj, hje⟩ := List.mem_map.mp hidmem
    have hj' : j < appts.length := List.mem_range.mp hj
    have : j + 1 = appts.length + 1 := by
      apply natToString_injective
      rw [hje, heq]
      rfl
    omega

/-- Witness for C1: the initial calendar satisfies the id invariant, and a
booking on it gets id "3" with all conclusions of the theorem. -/
theorem C1_witness :
    (initial_appointments 0).map Appt.id = seqIds (initial_appointments 0).length ∧
    ((book_appointment (initial_appointments 0) "Scheduled Meeting" 1560 1).2.id
        = toString ((initial_appointments 0).length + 1) ∧
      (book_appointment (initial_appointments 0) "Scheduled Meeting" 1560 1).1.map Appt.id
        = seqIds ((initial_appointments 0).length + 1) ∧
      ((book_appointment (initial_appointments 0) "Scheduled Meeting" 1560 1).1.map Appt.id).Nodup ∧
      ∀ old ∈ initial_appointments 0,
        old.id ≠ (book_appointment (initial_appointments 0) "Scheduled Meeting" 1560 1).2.id) :=
  have h : (initial_appointments 0).map Appt.id
      = seqIds (initial_appointments 0).length := by decide
  ⟨h, C1_booking_ids (initial_appointments 0) "Scheduled Meeting" 1560 1 h⟩

/-- Counterexample for C1 as stated: starting from the initial calendar
(ids "1", "2"), cancelling "1" and then booking assigns
`str(1 + 1) = "2"` again — the id "2" is assigned a second time and the
store now holds two appointments with the same id. -/
theorem C1_counterexample :
    ((book_appointment (cancel_appointment (initial_appointments 0) "1").1
        "Scheduled Meeting" 1560 1).1.map Appt.id = ["2", "2"]) ∧
    ¬ ((book_appointment (cancel_appointment (initial_appointments 0) "1").1
        "Scheduled Meeting" 1560 1).1.map Appt.id).Nodup := by
  decide

/-- C4: intent classification is phase-gated for terse replies: "1" maps to
`select_slot` in the slot-selection phase and never in the initial phase;
"confirm" maps to `confirm_booking` in the confirmation phase and to
`general_inquiry` (not `book_appointment`) in every other phase. -/
theorem C4_phase_gated_intent :
    determine_intent "1".toList "awaiting_slot_selection" = "select_slot" ∧
    determine_intent "1".toList "initial" ≠ "select_slot" ∧
    determine_intent "confirm".toList "awaiting_confirmation" = "confirm_booking" ∧
    ∀ phase : String, phase ≠ "awaiting_confirmation" →
      determine_intent "confirm".toList phase = "general_inquiry" := by
  refine ⟨by decide, by decide, by decide, ?_⟩
  intro phase hphase
  have e1 : slotDigits.contains (pyStrip (pyLower "confirm".toList)) = false := by
    decide
  have e2 : confirmationWords.any
      (fun w => isSubstringOf w (pyStrip (pyLower "confirm".toList))) = true := by
    decide
  have e3 : bookingWords.any
      (fun w => isSubstringOf w (pyStrip (pyLower "confirm".toList))) = false := by
    decide
  have e4 : availabilityWords.any
      (fun w => isSubstringOf w (pyStrip (pyLower "confirm".toList))) = false := by
    decide
  have e5 : modifyWords.any
      (fun w => isSubstringOf w (pyStrip (pyLower "confirm".toList))) = false := by
    decide
  simp only [determine_intent, e1, e2, e3, e4, e5]
  simp [hphase]

/-- Witness for C4: the fourth conjunct applied at the initial phase. -/
theorem C4_witness :
    (("initial" : String) ≠ "awaiting_confirmation") ∧
    determine_intent "confirm".toList "initial" = "general_inquiry" :=
  ⟨by decide, C4_phase_gated_intent.2.2.2 "initial" (by decide)⟩

/-- C5 (amended): the duplicated backend's `determine_intent` agrees with
the main backend's for every conversation phase on any text whose
lower-cased, stripped form is not a literal digit "1"–"10", contains no
confirmation keyword, and does not contain "show me".  On the remaining
texts the two differ: the duplicate lacks phase gating and the "show me"
availability keyword (`C5_counterexample`). -/
theorem C5_intent_agreement (text : List Char) (phase : String)
    (hdig : slotDigits.contains (pyStrip (pyLower text)) = false)
    (hconf : confirmationWords.any
      (fun w => isSubstringOf w (pyStrip (pyLower text))) = false)
    (hshow : isSubstringOf "show me".toList (pyStrip (pyLower text)) = false) :
    determine_intent_dup text = determine_intent text phase := by
  have havail : availabilityWords.any
        (fun w => isSubstringOf w (pyStrip (pyLower text)))
      = availabilityWordsDup.any
        (fun w => isSubstringOf w (pyStrip (pyLower text))) := by
    have hsplit : availabilityWords = availabilityWordsDup ++ ["show me".toList] := by
      decide
    rw [hsplit, List.any_append]
    simp only [List.any_cons, List.any_nil, Bool.or_false, hshow]
  simp only [determine_intent, determine_intent_dup, hdig, hconf, havail]
  by_cases hbook : bookingWords.any
      (fun w => isSubstringOf w (pyStrip (pyLower text))) = true
  · simp [hbook]
  · simp only [Bool.not_eq_true] at hbook
    by_cases havail2 : availabilityWordsDup.any
        (fun w => isSubstringOf w (pyStrip (pyLower text))) = true
    · simp [hbook, havail2]
    · simp only [Bool.not_eq_true] at havail2
      by_cases hmod : modifyWords.any
          (fun w => isSubstringOf w (pyStrip (pyLower text))) = true
      · simp [hbook, havail2, hmod]
      · simp only [Bool.not_eq_true] at hmod
        simp [hbook, havail2, hmod]

/-- Witness for C5: both classifiers agree on "hello" in the initial phase. -/
theorem C5_witness :
    (slotDigits.contains (pyStrip (pyLower "hello".toList)) = false ∧
     confirmationWords.any
       (fun w => isSubstringOf w (pyStrip (pyLower "hello".toList))) = false ∧
     isSubstringOf "show me".toList (pyStrip (pyLower "hello".toList)) = false) ∧
    determine_intent_dup "hello".toList = determine_intent "hello".toList "initial" :=
  ⟨⟨by decide, by decide, by decide⟩,
   C5_intent_agreement "hello".toList "initial" (by decide) (by decide) (by decide)⟩

/-- Counterexample for C5 as stated: on "1" in the initial phase the
duplicate classifies `select_slot` while the main backend classifies
`general_inquiry`; on "show me" the duplicate falls through to
`general_inquiry` while the main backend classifies `check_availability`. -/
theorem C5_counterexample :
    determine_intent_dup "1".toList = "select_slot" ∧
    determine_intent "1".toList "initial" = "general_inquiry" ∧
    determine_intent_dup "show me".toList = "general_inquiry" ∧
    determine_intent "show me".toList "initial" = "check_availability" := by
  decide

theorem weekday_window_case (now : Nat) (name : String)
    (hn1 : name ≠ "tomorrow") (hn2 : name ≠ "next_week")
    (hmem : name ∈ weekdayNames) :
    weekdayOf (get_date_range_from_preference now name).1
        = weekdayNames.indexOf name ∧
    hourOf (get_date_range_from_preference now name).1 = 9 ∧
    minuteOf (get_date_range_from_preference now name).1 = 0 ∧
    dayIndex now < dayIndex (get_date_range_from_preference now name).1 ∧
    dayIndex (get_date_range_from_preference now name).1 ≤ dayIndex now + 7 ∧
    (weekdayOf now = weekdayNames.indexOf name →
      dayIndex (get_date_range_from_preference now name).1 = dayIndex now + 7) ∧
    (get_date_range_from_preference now name).2
      = dayIndex (get_date_range_from_preference now name).1 * 1440 + 17 * 60 := by
  have hidx : weekdayNames.indexOf name < 7 := by
    fin_cases hmem <;> decide
  have hpair : get_date_range_from_preference now name
      = (replaceHour (now +
            (if ((weekdayNames.indexOf name : Int) - (weekdayOf now : Int)) ≤ 0
              then (weekdayNames.indexOf name : Int) - (weekdayOf now : Int) + 7
              else (weekdayNames.indexOf name : Int) - (weekdayOf now : Int)).toNat
            * oneDay) 9,
         replaceHour (replaceHour (now +
            (if ((weekdayNames.indexOf name : Int) - (weekdayOf now : Int)) ≤ 0
              then (weekdayNames.indexOf name : Int) - (weekdayOf now : Int) + 7
              else (weekdayNames.indexOf name : Int) - (weekdayOf now : Int)).toNat
            * oneDay) 9) 17) := by
    simp only [get_date_range_from_preference, if_neg hn1, if_neg hn2, if_pos hmem]
  rw [hpair]
  have hwd : weekdayOf now < 7 := Nat.mod_lt _ (by omega)
  by_cases hc : ((weekdayNames.indexOf name : Int) - (weekdayOf now : Int)) ≤ 0
  · simp only [if_pos hc]
    unfold weekdayOf at *
    unfold replaceHour dayIndex hourOf minuteOf oneDay at *
    refine ⟨?_, ?_, ?_, ?_, ?_, ?_, ?_⟩ <;> omega
  · simp only [if_neg hc]
    unfold weekdayOf at *
    unfold replaceHour dayIndex hourOf minuteOf oneDay at *
    refine ⟨?_, ?_, ?_, ?_, ?_, ?_, ?_⟩ <;> omega

/-- C8: window resolution.  "next_week" yields the coming Monday 09:00
through four days later (Friday) at 17:00; a weekday name yields the next
future occurrence of that weekday (next week if today is that weekday) at
09:00 through the same day at 17:00; an unrecognized preference — the only
shape an "absent" preference can take at this interface — yields tomorrow
09:00 through two days later at 17:00. -/
theorem C8_resolve_window (now : Nat) :
    (weekdayOf (get_date_range_from_preference now "next_week").1 = 0 ∧
     hourOf (get_date_range_from_preference now "next_week").1 = 9 ∧
     minuteOf (get_date_range_from_preference now "next_week").1 = 0 ∧
     dayIndex now < dayIndex (get_date_range_from_preference now "next_week").1 ∧
     dayIndex (get_date_range_from_preference now "next_week").1
       ≤ dayIndex now + 7 ∧
     (get_date_range_from_preference now "next_week").2
       = (get_date_range_from_preference now "next_week").1
          + 4 * oneDay + 8 * 60 ∧
     hourOf (get_date_range_from_preference now "next_week").2 = 17 ∧
     dayIndex (get_date_range_from_preference now "next_week").2
       = dayIndex (get_date_range_from_preference now "next_week").1 + 4) ∧
    (∀ name ∈ weekdayNames,
      weekdayOf (get_date_range_from_preference now name).1
          = weekdayNames.indexOf name ∧
      hourOf (get_date_range_from_preference now name).1 = 9 ∧
      minuteOf (get_date_range_from_preference now name).1 = 0 ∧
      dayIndex now < dayIndex (get_date_range_from_preference now name).1 ∧
      dayIndex (get_date_range_from_preference now name).1 ≤ dayIndex now + 7 ∧
      (weekdayOf now = weekdayNames.indexOf name →
        dayIndex (get_date_range_from_preference now name).1 = dayIndex now + 7) ∧
      (get_date_range_from_preference now name).2
        = dayIndex (get_date_range_from_preference now name).1 * 1440 + 17 * 60) ∧
    (∀ pref : String, pref ≠ "tomorrow" → pref ≠ "next_week" →
      pref ∉ weekdayNames →
      (get_date_range_from_preference now pref).1
          = (dayIndex now + 1) * 1440 + 9 * 60 ∧
      (get_date_range_from_preference now pref).2
          = (get_date_range_from_preference now pref).1 + 2 * oneDay + 8 * 60 ∧
      dayIndex (get_date_range_from_preference now pref).2
          = dayIndex (get_date_range_from_preference now pref).1 + 2 ∧
      hourOf (get_date_range_from_preference now pref).2 = 17) := by
  refine ⟨?_, ?_, ?_⟩
  · have hpair : get_date_range_from_preference now "next_week"
        = (replaceHour (now + (7 - weekdayOf now) * oneDay) 9,
           replaceHour (now + (7 - weekdayOf now) * oneDay) 9
             + 4 * oneDay + 8 * 60) := rfl
    rw [hpair]
    have hwd : weekdayOf now < 7 := Nat.mod_lt _ (by omega)
    unfold weekdayOf at *
    unfold replaceHour dayIndex hourOf minuteOf oneDay at *
    refine ⟨?_, ?_, ?_, ?_, ?_, ?_, ?_, ?_⟩ <;> omega
  · intro name hmem
    have hn1 : name ≠ "tomorrow" := by fin_cases hmem <;> decide
    have hn2 : name ≠ "next_week" := by fin_cases hmem <;> decide
    exact weekday_window_case now name hn1 hn2 hmem
  · intro pref h1 h2 h3
    have hpair : get_date_range_from_preference now pref
        = (replaceHour (now + oneDay) 9,
           replaceHour (now + oneDay) 9 + 2 * oneDay + 8 * 60) := by
      simp only [get_date_range_from_preference, if_neg h1, if_neg h2, if_neg h3]
    rw [hpair]
    refine ⟨?_, ?_, ?_, ?_⟩ <;>
      simp [replaceHour, dayIndex, hourOf, minuteOf, oneDay] <;> omega

/-- Witness for C8: the weekday and default branches applied at concrete
inputs (reference time 0, weekday "friday", unrecognized preference
"soon"). -/
theorem C8_witness :
    ("friday" ∈ weekdayNames ∧
      weekdayOf (get_date_range_from_preference 0 "friday").1
          = weekdayNames.indexOf "friday" ∧
      hourOf (get_date_range_from_preference 0 "friday").1 = 9 ∧
      minuteOf (get_date_range_from_preference 0 "friday").1 = 0 ∧
      dayIndex 0 < dayIndex (get_date_range_from_preference 0 "friday").1 ∧
      dayIndex (get_date_range_from_preference 0 "friday").1 ≤ dayIndex 0 + 7 ∧
      (weekdayOf 0 = weekdayNames.indexOf "friday" →
        dayIndex (get_date_range_from_preference 0 "friday").1 = dayIndex 0 + 7) ∧
      (get_date_range_from_preference 0 "friday").2
        = dayIndex (get_date_range_from_preference 0 "friday").1 * 1440 + 17 * 60) ∧
    ("soon" ≠ "tomorrow" ∧ "soon" ≠ "next_week" ∧ "soon" ∉ weekdayNames ∧
      (get_date_range_from_preference 0 "soon").1
          = (dayIndex 0 + 1) * 1440 + 9 * 60 ∧
      (get_date_range_from_preference 0 "soon").2
          = (get_date_range_from_preference 0 "soon").1 + 2 * oneDay + 8 * 60 ∧
      dayIndex (get_date_range_from_preference 0 "soon").2
          = dayIndex (get_date_range_from_preference 0 "soon").1 + 2 ∧
      hourOf (get_date_range_from_preference 0 "soon").2 = 17) :=
  ⟨⟨by decide, (C8_resolve_window 0).2.1 "friday" (by decide)⟩,
   ⟨by decide, by decide, by decide,
    (C8_resolve_window 0).2.2 "soon" (by decide) (by decide) (by decide)⟩⟩

/-! ### Workflow lemmas and the remaining claims -/

theorem lastContent_concat (msgs : List Msg) (m : Msg) :
    lastContent (msgs ++ [m]) = m.content := by
  unfold lastContent
  rw [List.getLast?_concat]
  rfl

theorem analyze_input_eq (st : ConversationState) :
    analyze_input st = { st with
      user_intent :=
        determine_intent (lastContent st.messages) st.conversation_phase,
      extracted_info :=
        mergeInfo st.extracted_info
          (extract_date_time_info (lastContent st.messages)) } := rfl

theorem generate_response_confirm_none (st : ConversationState)
    (hi : st.user_intent = "confirm_booking") (hs : st.selected_slot = none) :
    generate_response st = { st with messages := st.messages
      ++ [Msg.ai "Please select a time slot first before confirming.".toList] } := by
  simp only [generate_response, hi, hs]
  simp

/-- C6: a ConfirmBooking turn with no selected slot books nothing: the
shared calendar is unchanged, `booking_confirmed` keeps its previous value,
no slot becomes selected, and the appended response is the guidance text
asking the user to pick a slot first (the router sends the turn to the
respond node, bypassing the booking node entirely). -/
theorem C6_confirm_without_selection (fmt : Nat → String) (now : Nat)
    (cal : List Appt) (state : ConversationState) (text : List Char)
    (hsel : state.selected_slot = none)
    (hintent : determine_intent text state.conversation_phase
      = "confirm_booking") :
    (invoke_workflow fmt now cal
      { state with messages := state.messages ++ [Msg.human text] }).2 = cal ∧
    (invoke_workflow fmt now cal
      { state with messages := state.messages ++ [Msg.human text] }).1.booking_confirmed
        = state.booking_confirmed ∧
    (invoke_workflow fmt now cal
      { state with messages := state.messages ++ [Msg.human text] }).1.selected_slot
        = none ∧
    lastContent (invoke_workflow fmt now cal
      { state with messages := state.messages ++ [Msg.human text] }).1.messages
        = "Please select a time slot first before confirming.".toList := by
  have hlast : lastContent (state.messages ++ [Msg.human text]) = text :=
    lastContent_concat _ _
  have hana : analyze_input { state with
        messages := state.messages ++ [Msg.human text] }
      = { state with
          messages := state.messages ++ [Msg.human text],
          user_intent := "confirm_booking",
          extracted_info :=
            mergeInfo state.extracted_info (extract_date_time_info text) } := by
    rw [analyze_input_eq]
    dsimp only
    rw [hlast, hintent]
  have hroute : should_check_availability
      { state with
        messages := state.messages ++ [Msg.human text],
        user_intent := "confirm_booking",
        extracted_info :=
          mergeInfo state.extracted_info (extract_date_time_info text) }
      = "respond" := by
    simp only [should_check_availability]
    dsimp only
    rw [if_neg (by decide), if_neg (by decide), if_pos trivial, hsel]
    rfl
  have hresp := generate_response_confirm_none
    { state with
      messages := state.messages ++ [Msg.human text],
      user_intent := "confirm_booking",
      extracted_info :=
        mergeInfo state.extracted_info (extract_date_time_info text) }
    rfl hsel
  have hinv : invoke_workflow fmt now cal
      { state with messages := state.messages ++ [Msg.human text] }
      = ({ state with
            messages := (state.messages ++ [Msg.human text])
              ++ [Msg.ai "Please select a time slot first before confirming.".toList],
            user_intent := "confirm_booking",
            extracted_info :=
              mergeInfo state.extracted_info (extract_date_time_info text) },
         cal) := by
    simp only [invoke_workflow, hana, hroute]
    rw [if_neg (by decide), if_neg (by decide), if_neg (by decide), hresp]
  rw [hinv]
  refine ⟨rfl, rfl, hsel, ?_⟩
  exact lastContent_concat _ _

/-- Witness for C6: a fresh conversation in the confirmation phase saying
"yes" with no selected slot. -/
theorem C6_witness :
    ({ freshState with conversation_phase := "awaiting_confirmation"
        } : ConversationState).selected_slot = none ∧
    determine_intent "yes".toList "awaiting_confirmation" = "confirm_booking" ∧
    ((invoke_workflow (fun _ => "") 0 []
      { freshState with
        conversation_phase := "awaiting_confirmation",
        messages := [Msg.human "yes".toList] }).2 = [] ∧
     (invoke_workflow (fun _ => "") 0 []
      { freshState with
        conversation_phase := "awaiting_confirmation",
        messages := [Msg.human "yes".toList] }).1.booking_confirmed = false ∧
     (invoke_workflow (fun _ => "") 0 []
      { freshState with
        conversation_phase := "awaiting_confirmation",
        messages := [Msg.human "yes".toList] }).1.selected_slot = none ∧
     lastContent (invoke_workflow (fun _ => "") 0 []
      { freshState with
        conversation_phase := "awaiting_confirmation",
        messages := [Msg.human "yes".toList] }).1.messages
        = "Please select a time slot first before confirming.".toList) :=
  ⟨rfl, by decide,
   C6_confirm_without_selection (fun _ => "") 0 []
     { freshState with conversation_phase := "awaiting_confirmation" }
     "yes".toList rfl (by decide)⟩

/-- C7: a slot-selection reply that parses to a number below 1 or above the
number of available slots, or does not parse as an integer at all, leaves
the whole conversation state — in particular `selected_slot` and the phase —
unchanged.  The `ValueError` of `int()` is caught locally: the model's
`handle_slot_selection` is a total function whose failure branches return
the state unchanged rather than escalating. -/
theorem C7_invalid_selection (state : ConversationState)
    (h : ∀ n : Int,
      pyParseInt (pyStrip (lastContent state.messages)) = some n →
      n < 1 ∨ (state.available_slots.length : Int) < n) :
    handle_slot_selection state = state := by
  simp only [handle_slot_selection]
  cases hp : pyParseInt (pyStrip (lastContent state.messages)) with
  | none => rfl
  | some n =>
    have hn := h n hp
    dsimp only
    rw [if_neg (by omega)]

/-- Witness for C7: replies "0" (below range), "5" (above the range of a
single-slot list), and "soon!" (unparsable) all leave the state unchanged. -/
theorem C7_witness :
    handle_slot_selection { freshState with
        messages := [Msg.human "0".toList],
        available_slots := [⟨540, 600, ""⟩],
        conversation_phase := "awaiting_slot_selection" }
      = { freshState with
          messages := [Msg.human "0".toList],
          available_slots := [⟨540, 600, ""⟩],
          conversation_phase := "awaiting_slot_selection" } ∧
    handle_slot_selection { freshState with
        messages := [Msg.human "5".toList],
        available_slots := [⟨540, 600, ""⟩],
        conversation_phase := "awaiting_slot_selection" }
      = { freshState with
          messages := [Msg.human "5".toList],
          available_slots := [⟨540, 600, ""⟩],
          conversation_phase := "awaiting_slot_selection" } ∧
    handle_slot_selection { freshState with
        messages := [Msg.human "soon!".toList],
        available_slots := [⟨540, 600, ""⟩],
        conversation_phase := "awaiting_slot_selection" }
      = { freshState with
          messages := [Msg.human "soon!".toList],
          available_slots := [⟨540, 600, ""⟩],
          conversation_phase := "awaiting_slot_selection" } :=
  ⟨C7_invalid_selection _ (by
      intro n hn
      rw [show pyParseInt (pyStrip (lastContent [Msg.human "0".toList]))
          = some 0 from by decide] at hn
      cases hn
      exact Or.inl (by decide)),
   C7_invalid_selection _ (by
      intro n hn
      rw [show pyParseInt (pyStrip (lastContent [Msg.human "5".toList]))
          = some 5 from by decide] at hn
      cases hn
      exact Or.inr (by decide)),
   C7_invalid_selection _ (by
      intro n hn
      rw [show pyParseInt (pyStrip (lastContent [Msg.human "soon!".toList]))
          = none from by decide] at hn
      cases hn)⟩

/-- C3 (amended): when the workflow invocation of a turn raises an
unexpected exception, the error is surfaced as the 500-equivalent
`Except.error` with its message and the shared calendar is untouched — but
the turn is NOT rolled back completely: the inbound user message was
appended to the session's history (in place, against the object stored in
`conversations`) before the invocation, so the persisted session equals the
pre-turn session with that one message appended; all other fields keep
their pre-turn values. -/
theorem C3_fault_persistence
    (wf : ConversationState → List Appt →
      Except String (ConversationState × List Appt))
    (store : List (String × ConversationState)) (cal : List Appt)
    (cid : String) (text : List Char) (e : String)
    (hfault : wf { (lookupConv store cid).getD freshState with
        messages := ((lookupConv store cid).getD freshState).messages
          ++ [Msg.human text] } cal = Except.error e) :
    chat_endpoint wf store cal cid text
      = (putConv store cid
          { (lookupConv store cid).getD freshState with
            messages := ((lookupConv store cid).getD freshState).messages
              ++ [Msg.human text] },
         cal, Except.error e) := by
  simp only [chat_endpoint, hfault]

/-- Witness for C3: a failing turn on a session that already holds one
message keeps the history grown by exactly the new user message and
surfaces the error. -/
theorem C3_witness :
    chat_endpoint (fun _ _ => Except.error "boom")
        [("c1", { freshState with messages := [Msg.human "hi".toList] })] []
        "c1" "book".toList
      = (putConv
          [("c1", { freshState with messages := [Msg.human "hi".toList] })]
          "c1"
          { (lookupConv
              [("c1", { freshState with messages := [Msg.human "hi".toList] })]
              "c1").getD freshState with
            messages := ((lookupConv
              [("c1", { freshState with messages := [Msg.human "hi".toList] })]
              "c1").getD freshState).messages ++ [Msg.human "book".toList] },
         [], Except.error "boom") :=
  C3_fault_persistence (fun _ _ => Except.error "boom")
    [("c1", { freshState with messages := [Msg.human "hi".toList] })] []
    "c1" "book".toList "boom" rfl

/-- Counterexample for C3 as stated: with a failing workflow invocation the
turn surfaces a 500-equivalent, but the persisted session for the
conversation is NOT left as it was before the turn — its history has grown
by the inbound user message. -/
theorem C3_counterexample :
    (chat_endpoint (fun _ _ => Except.error "boom")
        [("c1", freshState)] [] "c1" "hello".toList).2.2
      = Except.error "boom" ∧
    lookupConv (chat_endpoint (fun _ _ => Except.error "boom")
        [("c1", freshState)] [] "c1" "hello".toList).1 "c1"
      = some { freshState with messages := [Msg.human "hello".toList] } ∧
    lookupConv (chat_endpoint (fun _ _ => Except.error "boom")
        [("c1", freshState)] [] "c1" "hello".toList).1 "c1"
      ≠ lookupConv [("c1", freshState)] "c1" := by
  refine ⟨rfl, rfl, ?_⟩
  decide

end CalendarAssistant
